import Mathlib

/-!
Verification of the terraform-state-splitter core (`src/state_splitter.py`)
against its natural-language specification.

The Python program is shallowly embedded below.  JSON state documents become
the `StateDocument` structure (`resources` is `Option` because the code
distinguishes a missing `resources` key from an empty list); a Python `None`
document is modelled as `Option StateDocument`.  Python string operations used
by the code (`startswith`, `replace(pat, rep, 1)`, `split('.')`) are modelled
on the character lists underlying `String`.  The `main` orchestration loop is
embedded as a pure fold over split mappings, threading a `World` of store
contents and emitting a trace of pull/push store operations; the in-place
mutation of shared resource dictionaries performed by `add_resources_to_state`
(the records it rewrites are the very objects held by the in-memory source
document) is modelled explicitly by rewriting the selected records of the
source document at the same program point.
-/

namespace StateSplitter

/-- One tracked resource, from the `resources` array of a state document.
`payload` stands for the opaque rest of the record (instances, provider
metadata) that the code never interprets. -/
structure ResourceRecord where
  mode : String
  module : String
  type : String
  name : String
  payload : String
deriving DecidableEq, Repr

/-- A terraform state document.  `resources = none` models a JSON document
with no `resources` key at all, which the code tolerates. -/
structure StateDocument where
  version : Int
  terraform_version : String
  serial : Int
  lineage : String
  resources : Option (List ResourceRecord)
deriving DecidableEq, Repr

/-- Python `s.startswith(p)`, modelled on the underlying character lists. -/
def strStartsWith (s p : String) : Bool :=
  p.data.isPrefixOf s.data

/-- Python `s.replace(pat, rep, 1)` on character lists: the leftmost
occurrence of `pat` (scanning positions from the left) is replaced by `rep`;
if `pat` does not occur, the string is unchanged. -/
def replaceFirstL (pat rep : List Char) : List Char → List Char
  | [] => if pat.isPrefixOf ([] : List Char) then rep else []
  | c :: cs =>
    if pat.isPrefixOf (c :: cs) then rep ++ (c :: cs).drop pat.length
    else c :: replaceFirstL pat rep cs

/-- Python `s.replace(pat, rep, 1)` at the `String` level. -/
def strReplaceFirst (s pat rep : String) : String :=
  String.mk (replaceFirstL pat.data rep.data s.data)

/-- Drop the first `n` characters of a string (used to state what a
prefix-anchored rewrite leaves behind). -/
def strDrop (s : String) (n : Nat) : String :=
  String.mk (s.data.drop n)

/-- `get_resource_identifier` (state_splitter.py:130): the f-string
`f"{module}.{mode}.{type}.{name}"`. -/
def get_resource_identifier (resource : ResourceRecord) : String :=
  resource.module ++ "." ++ resource.mode ++ "." ++ resource.type ++ "." ++ resource.name

/-- `find_module_resources` (state_splitter.py:116): every resource whose
`module` field starts with the raw string `"module." + module_name`. -/
def find_module_resources (state : Option StateDocument) (module_name : String) :
    List ResourceRecord :=
  match state with
  | none => []
  | some st =>
    match st.resources with
    | none => []
    | some rs => rs.filter (fun r => strStartsWith r.module ("module." ++ module_name))

/-- `find_resources_by_module_path` (state_splitter.py:368): exact equality of
the `module` field when `exclude_submodules` is true, raw string prefix match
otherwise. -/
def find_resources_by_module_path (state : Option StateDocument) (module_path : String)
    (exclude_submodules : Bool) : List ResourceRecord :=
  match state with
  | none => []
  | some st =>
    match st.resources with
    | none => []
    | some rs =>
      rs.filter (fun r =>
        if exclude_submodules then r.module == module_path
        else strStartsWith r.module module_path)

/-- `remove_resources_from_state` (state_splitter.py:139): keep exactly the
records whose identifier is not in `resource_ids`, preserving order.  A `None`
state or a state without a `resources` key is returned unchanged. -/
def remove_resources_from_state (state : Option StateDocument) (resource_ids : List String) :
    Option StateDocument :=
  match state with
  | none => none
  | some st =>
    match st.resources with
    | none => some st
    | some rs =>
      some { st with
        resources := some (rs.filter (fun r => !(resource_ids.contains (get_resource_identifier r)))) }

/-- The prefix rewrite performed at state_splitter.py:170-173 on each record
being merged: if both prefixes are truthy (present and nonempty, matching the
Python `if source_prefix and target_prefix` test) and the record's module
field starts with the first prefix, replace the first occurrence of that
prefix; otherwise the record is unchanged.  `sp`/`tp` are the optional
`source_prefix` and `target_prefix` arguments. -/
def rewriteRecord (sp tp : Option String) (r : ResourceRecord) : ResourceRecord :=
  match sp, tp with
  | some s, some t =>
    if (!(s == "")) && ((!(t == "")) && strStartsWith r.module s) then
      { r with module := strReplaceFirst r.module s t }
    else r
  | _, _ => r

/-- The per-record loop of `add_resources_to_state` (state_splitter.py:170-182):
each incoming record is rewritten, then appended exactly when its identifier
is not yet registered; the identifier set only grows.  Returns the final
identifier set and the list of appended (rewritten) records in input order. -/
def mergeLoop (sp tp : Option String) :
    List String → List ResourceRecord → List String × List ResourceRecord
  | existing, [] => (existing, [])
  | existing, r :: rest =>
    if get_resource_identifier (rewriteRecord sp tp r) ∈ existing then
      mergeLoop sp tp existing rest
    else
      ((mergeLoop sp tp (get_resource_identifier (rewriteRecord sp tp r) :: existing) rest).fst,
        rewriteRecord sp tp r ::
          (mergeLoop sp tp (get_resource_identifier (rewriteRecord sp tp r) :: existing) rest).snd)

/-- `add_resources_to_state` (state_splitter.py:154): a falsy (`None`) state is
replaced by the default empty document, a missing `resources` key by an empty
list; existing identifiers are collected, then incoming records are rewritten
and appended unless their identifier is already present. -/
def add_resources_to_state (state : Option StateDocument) (resources_to_add : List ResourceRecord)
    (sp tp : Option String) : StateDocument :=
  let st0 : StateDocument := match state with
    | none =>
      { version := 4, terraform_version := "1.0.0", serial := 0, lineage := "",
        resources := some ([] : List ResourceRecord) }
    | some s => s
  let base := st0.resources.getD []
  { st0 with
    resources := some (base ++ (mergeLoop sp tp (base.map get_resource_identifier) resources_to_add).snd) }

/-- The serial bookkeeping of `push_state` (state_splitter.py:92-96): a forced
serial wins; otherwise the document's own serial is incremented. -/
def push_serial (state : StateDocument) (force : Option Int) : StateDocument :=
  match force with
  | some n => { state with serial := n }
  | none => { state with serial := state.serial + 1 }

/-- Python `s.split('.')` on the underlying characters: maximal runs between
dots, with empty parts kept (`""` splits to `[""]`, `"a..b"` to
`["a", "", "b"]`). -/
def splitDotAux : List Char → List Char → List String
  | cur, [] => [String.mk cur.reverse]
  | cur, c :: cs =>
    if c == '.' then String.mk cur.reverse :: splitDotAux [] cs
    else splitDotAux (c :: cur) cs

/-- Python `s.split('.')` at the `String` level. -/
def splitDot (s : String) : List String := splitDotAux [] s.data

/-- Extract the module display names from the dot-split parts of a module
path, as the index loop of `identify_modules` (state_splitter.py:212-214)
does: every part directly following a literal `"module"` part. -/
def displayParts : List String → List String
  | [] => []
  | p :: rest =>
    match rest with
    | [] => []
    | q :: _ => if p == "module" then q :: displayParts rest else displayParts rest

/-- Display name of a module path (`"module.vpc.module.sub"` gives
`"vpc.sub"`), per state_splitter.py:206-217. -/
def displayName (p : String) : String :=
  String.intercalate "." (displayParts (splitDot p))

/-- Deduplicate keeping first occurrences; models collecting module paths into
the Python set `all_module_paths` (the set's iteration order is arbitrary in
Python, and no claim depends on it). -/
def dedupFirstAux (seen : List String) : List String → List String
  | [] => []
  | x :: xs => if x ∈ seen then dedupFirstAux seen xs else x :: dedupFirstAux (x :: seen) xs

/-- All distinct module paths of a resource list that are truthy and start
with `"module."` (state_splitter.py:197-203). -/
def modulePathsOf (rs : List ResourceRecord) : List String :=
  dedupFirstAux []
    (rs.filterMap (fun r =>
      if (!(r.module == "")) && strStartsWith r.module "module." then some r.module else none))

/-- The grouping `module_resources[path]` of `identify_modules`: the records
whose module field equals the path exactly, in document order. -/
def module_resources_of (rs : List ResourceRecord) (p : String) : List ResourceRecord :=
  rs.filter (fun r => r.module == p)

/-- Python dict assignment on an association list: replace the value in place
if the key exists, append otherwise. -/
def dictInsert {α : Type} : List (String × α) → String → α → List (String × α)
  | [], k, v => [(k, v)]
  | (k', v') :: rest, k, v =>
    if k' == k then (k', v) :: rest else (k', v') :: dictInsert rest k v

/-- `identify_modules` (state_splitter.py:186-239), the ModuleIndex: maps each
module display name to its full path and a count.  The count starts as the
number of resources whose module field equals the path exactly, and is then
reduced by the counts of every strict dotted-submodule extension of the path
(state_splitter.py:226-237).  The second value returned by the Python
function, the per-path resource grouping, is `module_resources_of`. -/
def identify_modules (state : Option StateDocument) : List (String × String × Int) :=
  match state with
  | none => []
  | some st =>
    match st.resources with
    | none => []
    | some rs =>
      let paths := modulePathsOf rs
      let base := paths.foldl
        (fun acc p =>
          dictInsert acc (displayName p) (p, (Int.ofNat (module_resources_of rs p).length)))
        []
      base.map (fun entry =>
        let fp := entry.snd.fst
        let sub := paths.foldl
          (fun s q =>
            if (!(q == fp)) && strStartsWith q (fp ++ ".module.") then
              s + Int.ofNat (module_resources_of rs q).length
            else s)
          0
        (entry.fst, fp, entry.snd.snd - sub))

/-- The contents of the external stores: the source store's document and, per
target directory, the document a pull returns (`none` models an unreachable
store, whose pull raises and is caught at state_splitter.py:453-456). -/
structure World where
  source : StateDocument
  targets : String → Option StateDocument

/-- Observable store round-trips performed by a run, in order. -/
inductive StoreOp where
  | pullSource (doc : StateDocument)
  | pullTarget (dir : String) (result : Option StateDocument)
  | pushTarget (dir : String) (doc : StateDocument)
  | pushSource (doc : StateDocument)
deriving DecidableEq, Repr

/-- The freshly initialized destination document built when a target pull
fails (state_splitter.py:457-463). -/
def initTargetDoc (src : StateDocument) : StateDocument :=
  { version := 4, terraform_version := src.terraform_version, serial := 0,
    lineage := src.lineage, resources := some ([] : List ResourceRecord) }

/-- In-flight state of the mapping loop of `main`: the in-memory source
document, the current target store contents, the accumulated
`all_resources_to_remove` list, and the trace so far. -/
structure LoopState where
  source_state : StateDocument
  targets : String → Option StateDocument
  to_remove : List String
  trace : List StoreOp

/-- The in-place mutation `add_resources_to_state` performs on the source
document: the records selected for the current mapping (exact module match)
are the same objects held by the in-memory source document, so rewriting their
module field rewrites them inside the source document too. -/
def sourceAfterMutation (res : Option (List ResourceRecord)) (mp : String)
    (sp tp : Option String) : Option (List ResourceRecord) :=
  match res with
  | none => none
  | some rs => some (rs.map (fun r => if r.module == mp then rewriteRecord sp tp r else r))

/-- One iteration of the mapping loop of `main` (state_splitter.py:441-503)
for the mapping `m = (module_path, target_dir)`: select by exact module path,
skip if empty, pull the target (degrading to `initTargetDoc` on failure); in
dry-run mode only log; otherwise record the pre-rewrite identifiers, merge
into the target (mutating the shared source records), and push the target
with its serial incremented. -/
def processMapping (dry : Bool) (pfx : String → Option (String × String))
    (acc : LoopState) (m : String × String) : LoopState :=
  if (find_resources_by_module_path (some acc.source_state) m.fst true).isEmpty then acc
  else
    let pulled := acc.targets m.snd
    let target_state := pulled.getD (initTargetDoc acc.source_state)
    if dry then
      { acc with trace := acc.trace ++ [StoreOp.pullTarget m.snd pulled] }
    else
      let sel := find_resources_by_module_path (some acc.source_state) m.fst true
      let sp := (pfx m.fst).map Prod.fst
      let tp := (pfx m.fst).map Prod.snd
      let pushed_target := push_serial (add_resources_to_state (some target_state) sel sp tp) none
      { source_state :=
          { acc.source_state with
            resources := sourceAfterMutation acc.source_state.resources m.fst sp tp },
        targets := fun d => if d == m.snd then some pushed_target else acc.targets d,
        to_remove := acc.to_remove ++ sel.map get_resource_identifier,
        trace := acc.trace ++ [StoreOp.pullTarget m.snd pulled, StoreOp.pushTarget m.snd pushed_target] }

/-- Result of a whole run: the final store contents, the trace of store
round-trips, and the identifiers removed from the source (the run's final
audit output). -/
structure RunResult where
  world : World
  trace : List StoreOp
  removed_ids : List String

/-- The orchestration of `main` from the source pull onwards
(state_splitter.py:433-515): pull the source once, fold the mapping loop over
the split list, and, unless the run is a dry run or nothing was collected for
removal, evict the collected identifiers from the in-memory source document
and push it with serial forced to `original_serial + 1`. -/
def run_main (w : World) (splits : List (String × String))
    (pfx : String → Option (String × String)) (dry_run : Bool) : RunResult :=
  let source_state0 := w.source
  let original_serial := source_state0.serial
  let init : LoopState :=
    { source_state := source_state0, targets := w.targets, to_remove := [],
      trace := [StoreOp.pullSource source_state0] }
  let final := splits.foldl (processMapping dry_run pfx) init
  if (!dry_run) && (!final.to_remove.isEmpty) then
    let evicted :=
      (remove_resources_from_state (some final.source_state) final.to_remove).getD final.source_state
    let pushed := push_serial evicted (some (original_serial + 1))
    { world := { source := pushed, targets := final.targets },
      trace := final.trace ++ [StoreOp.pushSource pushed],
      removed_ids := final.to_remove }
  else
    { world := { source := w.source, targets := final.targets },
      trace := final.trace,
      removed_ids := [] }

/-- Trace classifiers. -/
def isPullSourceOp : StoreOp → Bool
  | StoreOp.pullSource _ => true
  | _ => false

def isPushOp : StoreOp → Bool
  | StoreOp.pushTarget _ _ => true
  | StoreOp.pushSource _ => true
  | _ => false

/-- Number of source pulls in a trace. -/
def countPullSource (t : List StoreOp) : Nat :=
  (t.filter isPullSourceOp).length

/-! ### Concrete fixtures

A source document holding one resource under `module.vpc`, a split mapping
moving that module to directory `dirA`, and the prefix rewrite
`module.vpc -> module.networking.module.vpc` (the spec's own worked example).
-/

def rVpc : ResourceRecord := ⟨"managed", "module.vpc", "aws_subnet", "a", "P1"⟩

def rSub : ResourceRecord := ⟨"managed", "module.vpc.module.sub", "aws_route", "b", "P2"⟩

def rVpc2 : ResourceRecord := ⟨"managed", "module.vpc2", "aws_vpc", "c", "P3"⟩

def srcDoc1 : StateDocument := ⟨4, "1.5.0", 5, "L1", some [rVpc]⟩

def w0 : World := ⟨srcDoc1, fun _ => none⟩

def splits0 : List (String × String) := [("module.vpc", "dirA")]

def pfx0 : String → Option (String × String) := fun p =>
  if p == "module.vpc" then some ("module.vpc", "module.networking.module.vpc") else none

/-- The source document the `w0`/`splits0`/`pfx0` run pushes back: the moved
resource is still present, rewritten in place, because the eviction matched
identifiers computed before the in-place rewrite. -/
def pushedDoc0 : StateDocument :=
  { version := 4, terraform_version := "1.5.0", serial := 6, lineage := "L1",
    resources := some [{ rVpc with module := "module.networking.module.vpc" }] }

/-- A document the source store could hold just before write-back (an external
actor raised the serial to 10 after the initial pull). -/
def repull10 : StateDocument := ⟨4, "1.5.0", 10, "L1", some []⟩

/-- A source document with a module and a nested submodule, for the
selection-policy claims. -/
def srcDoc2 : StateDocument := ⟨4, "1.5.0", 5, "L2", some [rVpc, rSub]⟩

def emptyT : StateDocument := ⟨4, "1.0.0", 0, "LT", some []⟩

def w4 : World := ⟨srcDoc2, fun d => if d == "dirA" then some emptyT else none⟩

def pfxNone : String → Option (String × String) := fun _ => none

/-- Document with resources both directly under `module.a` and in its
submodule `module.a.module.b` (failing input for the direct-count claim). -/
def rA : ResourceRecord := ⟨"managed", "module.a", "t", "x", "PA"⟩

def rAB : ResourceRecord := ⟨"managed", "module.a.module.b", "t", "y", "PB"⟩

def bugDoc : StateDocument := ⟨4, "1.0.0", 0, "LB", some [rA, rAB]⟩

/-- Document holding resources of `module.vpc` and of its sibling
`module.vpc2`, whose name merely begins with `vpc`. -/
def d10 : StateDocument := ⟨4, "1.0.0", 0, "L0", some [rVpc, rVpc2]⟩

/-- Loop state as it stands when the first mapping is processed. -/
def acc0 : LoopState :=
  { source_state := srcDoc1, targets := fun _ => none, to_remove := [], trace := [] }

/-! ### Spec-side contracts

These two definitions follow the specification's words (not the code), so the
claims they formalise can be compared with the embedded program.
-/

/-- Spec contract behind C2 (spec 4.5, 5): the eviction step is computed
against a freshly re-pulled copy of the source document and that second read
wins, so the source document written back must be `repulled` minus the
removed identifiers.  `repulled` is the content of the source store just
before eviction. -/
def evictionAgainstRepullSpec (w : World) (splits : List (String × String))
    (pfx : String → Option (String × String)) (repulled : StateDocument) : Prop :=
  ∀ doc, StoreOp.pushSource doc ∈ (run_main w splits pfx false).trace →
    doc.resources =
      ((remove_resources_from_state (some repulled)
          (run_main w splits pfx false).removed_ids).getD repulled).resources

/-- Spec contract behind C3 (spec 4.6): every source write-back carries serial
`max(originalSerial + 1, currentlyObservedSerial + 1)`, where `repulled` is
the freshly re-pulled copy just before write-back. -/
def serialContractSpec (w : World) (splits : List (String × String))
    (pfx : String → Option (String × String)) (repulled : StateDocument) : Prop :=
  ∀ doc, StoreOp.pushSource doc ∈ (run_main w splits pfx false).trace →
    doc.serial = max (w.source.serial + 1) (repulled.serial + 1)

/-! ### Helper lemmas -/

/-- Replacing the first occurrence of a pattern that is a prefix substitutes
it at the front. -/
theorem replaceFirstL_isPrefixOf (pat rep l : List Char)
    (h : pat.isPrefixOf l = true) :
    replaceFirstL pat rep l = rep ++ l.drop pat.length := by
  cases l with
  | nil =>
    cases pat with
    | nil => simp [replaceFirstL, List.isPrefixOf]
    | cons p ps => simp [List.isPrefixOf] at h
  | cons c cs => simp [replaceFirstL, h]

/-- String-level form of `replaceFirstL_isPrefixOf`. -/
theorem strReplaceFirst_of_startsWith (m s t : String) (h : strStartsWith m s = true) :
    strReplaceFirst m s t = t ++ strDrop m s.length := by
  unfold strStartsWith at h
  unfold strReplaceFirst strDrop
  rw [replaceFirstL_isPrefixOf _ _ _ h]
  rfl

/-- The identifier set threaded through `mergeLoop` only grows. -/
theorem mergeLoop_existing_subset (sp tp : Option String) (rs : List ResourceRecord) :
    ∀ (ex : List String) (x : String), x ∈ ex → x ∈ (mergeLoop sp tp ex rs).fst := by
  induction rs with
  | nil =>
    intro ex x hx
    simpa [mergeLoop] using hx
  | cons a rest ih =>
    intro ex x hx
    by_cases h : get_resource_identifier (rewriteRecord sp tp a) ∈ ex
    · simpa [mergeLoop, h] using ih ex x hx
    · simp only [mergeLoop, if_neg h]
      exact ih _ x (List.mem_cons_of_mem _ hx)

/-- After the merge loop, every incoming record's rewritten identifier is in
the final identifier set. -/
theorem mergeLoop_mem_fst (sp tp : Option String) (rs : List ResourceRecord) :
    ∀ (ex : List String) (r : ResourceRecord), r ∈ rs →
      get_resource_identifier (rewriteRecord sp tp r) ∈ (mergeLoop sp tp ex rs).fst := by
  induction rs with
  | nil =>
    intro ex r hr
    cases hr
  | cons a rest ih =>
    intro ex r hr
    by_cases h : get_resource_identifier (rewriteRecord sp tp a) ∈ ex
    · rcases List.mem_cons.mp hr with hr' | hr'
      · subst hr'
        simpa [mergeLoop, h] using mergeLoop_existing_subset sp tp rest ex _ h
      · simpa [mergeLoop, h] using ih ex r hr'
    · rcases List.mem_cons.mp hr with hr' | hr'
      · subst hr'
        simp only [mergeLoop, if_neg h]
        exact mergeLoop_existing_subset sp tp rest _ _ (List.mem_cons_self _ _)
      · simp only [mergeLoop, if_neg h]
        exact ih _ r hr'

/-- Everything in the final identifier set came from the initial set or from
an appended record. -/
theorem mergeLoop_fst_mem (sp tp : Option String) (rs : List ResourceRecord) :
    ∀ (ex : List String) (x : String), x ∈ (mergeLoop sp tp ex rs).fst →
      x ∈ ex ∨ x ∈ (mergeLoop sp tp ex rs).snd.map get_resource_identifier := by
  induction rs with
  | nil =>
    intro ex x hx
    left
    simpa [mergeLoop] using hx
  | cons a rest ih =>
    intro ex x hx
    by_cases h : get_resource_identifier (rewriteRecord sp tp a) ∈ ex
    · simp only [mergeLoop, if_pos h] at hx ⊢
      exact ih ex x hx
    · simp only [mergeLoop, if_neg h] at hx ⊢
      rcases ih _ x hx with hx' | hx'
      · rcases List.mem_cons.mp hx' with hx'' | hx''
        · right
          rw [List.map_cons, hx'']
          exact List.mem_cons_self _ _
        · left
          exact hx''
      · right
        rw [List.map_cons]
        exact List.mem_cons_of_mem _ hx'

/-- When every incoming identifier is already registered, the merge loop
appends nothing. -/
theorem mergeLoop_all_skipped (sp tp : Option String) (rs : List ResourceRecord) :
    ∀ (ex : List String),
      (∀ r ∈ rs, get_resource_identifier (rewriteRecord sp tp r) ∈ ex) →
      mergeLoop sp tp ex rs = (ex, []) := by
  induction rs with
  | nil =>
    intro ex _
    simp [mergeLoop]
  | cons a rest ih =>
    intro ex hall
    have ha : get_resource_identifier (rewriteRecord sp tp a) ∈ ex :=
      hall a (List.mem_cons_self _ _)
    simp only [mergeLoop, if_pos ha]
    exact ih ex (fun r hr => hall r (List.mem_cons_of_mem _ hr))

/-- Updating the `resources` field with its own value is the identity. -/
theorem StateDocument_update_resources_self (d : StateDocument) (l : List ResourceRecord)
    (h : d.resources = some l) : { d with resources := some l } = d := by
  cases d
  simp only at h
  simp [h]

/-- The first merge yields a document whose resource list covers the rewritten
identifier of every incoming record. -/
theorem add_resources_covers (state : Option StateDocument) (rs : List ResourceRecord)
    (sp tp : Option String) :
    ∃ bs, (add_resources_to_state state rs sp tp).resources = some bs ∧
      ∀ r ∈ rs, get_resource_identifier (rewriteRecord sp tp r) ∈ bs.map get_resource_identifier := by
  refine ⟨_, rfl, ?_⟩
  intro r hr
  rw [List.map_append]
  rcases mergeLoop_fst_mem sp tp rs _ _ (mergeLoop_mem_fst sp tp rs _ r hr) with h | h
  · exact List.mem_append.mpr (Or.inl h)
  · exact List.mem_append.mpr (Or.inr h)

/-- One mapping step never pulls the source store. -/
theorem processMapping_trace_count (dry : Bool) (pfx : String → Option (String × String))
    (acc : LoopState) (m : String × String) :
    countPullSource (processMapping dry pfx acc m).trace = countPullSource acc.trace := by
  by_cases h1 : (find_resources_by_module_path (some acc.source_state) m.fst true).isEmpty = true
  · simp [processMapping, h1]
  · by_cases h2 : dry = true
    · simp [processMapping, h1, h2, countPullSource, List.filter_append, isPullSourceOp]
    · simp [processMapping, h1, h2, countPullSource, List.filter_append, isPullSourceOp]

/-- One mapping step never pushes the source store. -/
theorem processMapping_no_pushSource (dry : Bool) (pfx : String → Option (String × String))
    (acc : LoopState) (m : String × String) (doc : StateDocument) :
    (StoreOp.pushSource doc ∈ (processMapping dry pfx acc m).trace ↔
      StoreOp.pushSource doc ∈ acc.trace) := by
  by_cases h1 : (find_resources_by_module_path (some acc.source_state) m.fst true).isEmpty = true
  · simp [processMapping, h1]
  · by_cases h2 : dry = true
    · simp [processMapping, h1, h2]
    · simp [processMapping, h1, h2]

/-- In dry-run mode a mapping step pushes nothing (its trace stays push-free
if it was) and leaves the loop state untouched apart from the trace. -/
theorem processMapping_dry_all (pfx : String → Option (String × String))
    (acc : LoopState) (m : String × String) :
    ((processMapping true pfx acc m).trace.all (fun op => !(isPushOp op)) =
      acc.trace.all (fun op => !(isPushOp op))) := by
  by_cases h1 : (find_resources_by_module_path (some acc.source_state) m.fst true).isEmpty = true
  · simp [processMapping, h1]
  · simp [processMapping, h1, List.all_append, isPushOp]

/-- The mapping loop never pulls the source store. -/
theorem foldl_trace_count (dry : Bool) (pfx : String → Option (String × String)) :
    ∀ (ms : List (String × String)) (acc : LoopState),
      countPullSource ((ms.foldl (processMapping dry pfx) acc).trace) =
        countPullSource acc.trace := by
  intro ms
  induction ms with
  | nil => intro acc; rfl
  | cons m rest ih =>
    intro acc
    rw [List.foldl_cons, ih, processMapping_trace_count]

/-- The mapping loop never pushes the source store. -/
theorem foldl_no_pushSource (dry : Bool) (pfx : String → Option (String × String)) :
    ∀ (ms : List (String × String)) (acc : LoopState) (doc : StateDocument),
      (StoreOp.pushSource doc ∈ ((ms.foldl (processMapping dry pfx) acc).trace) ↔
        StoreOp.pushSource doc ∈ acc.trace) := by
  intro ms
  induction ms with
  | nil => intro acc doc; exact Iff.rfl
  | cons m rest ih =>
    intro acc doc
    rw [List.foldl_cons]
    exact (ih _ doc).trans (processMapping_no_pushSource dry pfx acc m doc)

/-- In dry-run mode the whole mapping loop keeps the trace push-free. -/
theorem foldl_dry_all (pfx : String → Option (String × String)) :
    ∀ (ms : List (String × String)) (acc : LoopState),
      ((ms.foldl (processMapping true pfx) acc).trace.all (fun op => !(isPushOp op)) =
        acc.trace.all (fun op => !(isPushOp op))) := by
  intro ms
  induction ms with
  | nil => intro acc; rfl
  | cons m rest ih =>
    intro acc
    rw [List.foldl_cons, ih, processMapping_dry_all]

/-! ### Claim theorems -/

/-- C1 (code bug witnessed): in the non-dry run `w0`/`splits0`/`pfx0` — one
resource under `module.vpc`, moved with the rewrite
`module.vpc -> module.networking.module.vpc` — the eviction list does hold the
resource's original (pre-rewrite) address, yet the source document pushed back
still contains the moved resource (with its module rewritten in place), so the
source has not relinquished it: `add_resources_to_state` rewrote the very
record held by the in-memory source document before the eviction ran, and the
rewritten record no longer matches its original address. -/
theorem c1_rewritten_resource_left_in_source :
    (run_main w0 splits0 pfx0 false).removed_ids = [get_resource_identifier rVpc] ∧
    (run_main w0 splits0 pfx0 false).world.source.resources =
      some [{ rVpc with module := "module.networking.module.vpc" }] := by
  decide

/-- C4 counterexample: the orchestrator's selection does not include nested
submodules.  In a run over a document holding a resource of `module.vpc` and a
resource of its nested submodule `module.vpc.module.sub`, with the mapping
`module.vpc -> dirA`, the destination receives only the exact-module resource
and the submodule resource stays behind in the source. -/
theorem c4_counterexample :
    strStartsWith rSub.module ("module.vpc" ++ ".module.") = true ∧
    rSub ∈ srcDoc2.resources.getD [] ∧
    (run_main w4 splits0 pfxNone false).world.targets "dirA" =
      some { version := 4, terraform_version := "1.0.0", serial := 1, lineage := "LT",
             resources := some [rVpc] } ∧
    (run_main w4 splits0 pfxNone false).world.source.resources = some [rSub] := by
  decide

/-- C4 (amended): the orchestrator selects resources by exact module-path
equality (`find_resources_by_module_path` with `exclude_submodules = true`, as
`main` calls it): a record is selected for a mapping exactly when it is in the
document and its module field equals the mapping's module path, so nested
submodule resources are excluded. -/
theorem c4_exact_selection (st : StateDocument) (mp : String) (r : ResourceRecord) :
    (r ∈ find_resources_by_module_path (some st) mp true ↔
      r ∈ st.resources.getD [] ∧ r.module = mp) := by
  cases hres : st.resources with
  | none => simp [find_resources_by_module_path, hres]
  | some rs => simp [find_resources_by_module_path, hres, List.mem_filter]

/-- C5 (code bug witnessed): on a document with one resource directly under
`module.a` and one under its submodule `module.a.module.b`, the module index
reports a direct-resource count of 0 for `a`, although exactly one resource
has module field `module.a`: the per-path grouping is already exact, so the
descendant subtraction (which the function's own docstring describes as
leaving "direct resource counts") double-counts.  A document without a
`resources` key still yields an empty index, as the claim also states. -/
theorem c5_direct_count_bug :
    (identify_modules (some bugDoc)).lookup "a" = some ("module.a", 0) ∧
    ((bugDoc.resources.getD []).filter (fun r => r.module == "module.a")).length = 1 ∧
    identify_modules (some { bugDoc with resources := none }) = [] := by
  decide

/-- C6 (confirmed, in the strongest form): merging the same record sequence
into a destination twice yields literally the same document as merging it
once — every incoming record's rewritten identifier is registered by the
first merge, so the second merge skips them all and appends nothing; in
particular the resource set by address is unchanged and no duplicate
addresses are introduced. -/
theorem c6_merge_idempotent (state : Option StateDocument) (rs : List ResourceRecord)
    (sp tp : Option String) :
    add_resources_to_state (some (add_resources_to_state state rs sp tp)) rs sp tp =
      add_resources_to_state state rs sp tp := by
  obtain ⟨bs, hres, hcov⟩ := add_resources_covers state rs sp tp
  have hskip := mergeLoop_all_skipped sp tp rs (bs.map get_resource_identifier) hcov
  have hstep : add_resources_to_state (some (add_resources_to_state state rs sp tp)) rs sp tp =
      { add_resources_to_state state rs sp tp with
        resources := some ((((add_resources_to_state state rs sp tp).resources).getD []) ++
          (mergeLoop sp tp ((((add_resources_to_state state rs sp tp).resources).getD []).map
            get_resource_identifier) rs).snd) } := rfl
  rw [hstep, hres]
  simp only [Option.getD_some, hskip, List.append_nil]
  exact StateDocument_update_resources_self _ bs hres

/-- C10 (confirmed): selection matches by raw string prefix, not by module
path segment boundary.  On the document `d10`, selecting module name `vpc`
(and likewise selecting path `module.vpc` under the prefix policy) also
returns the resource of the distinct sibling module `module.vpc2`, which is
neither the module itself nor one of its dotted submodules. -/
theorem c10_raw_string_sibling_selected :
    rVpc2.module = "module.vpc2" ∧
    (rVpc2.module == "module.vpc") = false ∧
    strStartsWith rVpc2.module "module.vpc.module." = false ∧
    rVpc2 ∈ find_module_resources (some d10) "vpc" ∧
    rVpc2 ∈ find_resources_by_module_path (some d10) "module.vpc" false := by
  decide

/-- C9 (confirmed): the address rewrite is prefix-anchored.  When both
prefixes are given (nonempty, since an empty Python string is falsy and so
counts as absent) and the record's module field starts with the first, the
leading occurrence — which is the first occurrence — is replaced, keeping the
deeper submodule suffix; a record whose module does not start with the prefix
is unchanged even if the prefix occurs elsewhere in it; and with either
prefix absent the record is unchanged. -/
theorem c9_rewrite_anchored (r : ResourceRecord) (s t : String) :
    ((s ≠ "") → (t ≠ "") → strStartsWith r.module s = true →
      rewriteRecord (some s) (some t) r =
        { r with module := t ++ strDrop r.module s.length }) ∧
    (strStartsWith r.module s = false → rewriteRecord (some s) (some t) r = r) ∧
    (∀ o : Option String, rewriteRecord none o r = r ∧ rewriteRecord o none r = r) := by
  refine ⟨?_, ?_, ?_⟩
  · intro hs ht hm
    have hs' : (s == "") = false := by simp [hs]
    have ht' : (t == "") = false := by simp [ht]
    simp [rewriteRecord, hs', ht', hm, strReplaceFirst_of_startsWith r.module s t hm]
  · intro hm
    simp [rewriteRecord, hm]
  · intro o
    refine ⟨rfl, ?_⟩
    cases o <;> rfl

/-- Witness for `c9_rewrite_anchored`: rewriting `module.vpc.module.sub`
under `module.vpc -> module.net` gives `module.net.module.sub`. -/
theorem c9_rewrite_anchored_witness :
    rewriteRecord (some "module.vpc") (some "module.net") rSub =
      { rSub with module := "module.net" ++ strDrop rSub.module ("module.vpc".length) } :=
  (c9_rewrite_anchored rSub "module.vpc" "module.net").1
    (by decide) (by decide) (by decide)

/-- C8 (confirmed): when the target pull for a processed mapping fails, the
loop body does not abort; the merge and push proceed against a freshly
initialized document with version 4, the source's terraform_version and
lineage, serial 0 and an empty resource list. -/
theorem c8_target_pull_failure_initializes (pfx : String → Option (String × String))
    (acc : LoopState) (mp dir : String)
    (hpull : acc.targets dir = none)
    (hsel : (find_resources_by_module_path (some acc.source_state) mp true).isEmpty = false) :
    (processMapping false pfx acc (mp, dir)).targets dir =
      some (push_serial
        (add_resources_to_state (some (initTargetDoc acc.source_state))
          (find_resources_by_module_path (some acc.source_state) mp true)
          ((pfx mp).map Prod.fst) ((pfx mp).map Prod.snd)) none) := by
  simp [processMapping, hsel, hpull]

/-- Witness for `c8_target_pull_failure_initializes` at a concrete loop state
whose target store is unreachable. -/
theorem c8_target_pull_failure_initializes_witness :
    (processMapping false pfx0 acc0 ("module.vpc", "dirA")).targets "dirA" =
      some (push_serial
        (add_resources_to_state (some (initTargetDoc acc0.source_state))
          (find_resources_by_module_path (some acc0.source_state) "module.vpc" true)
          ((pfx0 "module.vpc").map Prod.fst) ((pfx0 "module.vpc").map Prod.snd)) none) :=
  c8_target_pull_failure_initializes pfx0 acc0 "module.vpc" "dirA" rfl (by decide)

/-- C2 counterexample: the eviction is not computed against a freshly
re-pulled copy.  In the `w0`/`splits0`/`pfx0` run nothing ever writes the
source store before the final push, so a fresh re-pull just before eviction
would return `w0.source` — and evicting the recorded identifiers from that
copy removes the moved resource.  The document the run actually pushes still
contains it, so the spec's re-pull contract does not hold of the code. -/
theorem c2_counterexample : ¬ evictionAgainstRepullSpec w0 splits0 pfx0 w0.source := by
  intro h
  have h1 := h pushedDoc0 (by decide)
  exact absurd h1 (by decide)

/-- C2 (amended): the source document is pulled exactly once per run, at the
start; the eviction step is computed against that single in-memory copy (as
modified in place by the mapping loop), not against a second read. -/
theorem c2_source_pulled_once (w : World) (splits : List (String × String))
    (pfx : String → Option (String × String)) (dry : Bool) :
    countPullSource (run_main w splits pfx dry).trace = 1 := by
  have hfold := foldl_trace_count dry pfx splits
    { source_state := w.source, targets := w.targets, to_remove := [],
      trace := [StoreOp.pullSource w.source] }
  by_cases hc : ((!dry) &&
      (!((splits.foldl (processMapping dry pfx)
        { source_state := w.source, targets := w.targets, to_remove := [],
          trace := [StoreOp.pullSource w.source] }).to_remove.isEmpty))) = true
  · simp only [run_main, hc, if_true]
    simp only [countPullSource, List.filter_append] at hfold ⊢
    simp [hfold, isPullSourceOp]
  · simp only [run_main, hc, if_false]
    simpa [countPullSource, isPullSourceOp] using hfold

/-- C3 counterexample: the serial written back to the source is not
`max(originalSerial + 1, currentlyObservedSerial + 1)`.  With the source
store's serial raised to 10 by an external actor after the initial pull
(observed serial 10, original serial 5), the spec contract demands serial 11,
but the run pushes serial 6. -/
theorem c3_counterexample : ¬ serialContractSpec w0 splits0 pfx0 repull10 := by
  intro h
  have h1 := h pushedDoc0 (by decide)
  exact absurd h1 (by decide)

/-- C3 (amended): every source write-back carries serial
`originalSerial + 1`, where `originalSerial` is the serial of the single
initial pull — the store's serial at write-back time is never consulted. -/
theorem c3_source_push_serial (w : World) (splits : List (String × String))
    (pfx : String → Option (String × String)) (dry : Bool) (doc : StateDocument)
    (h : StoreOp.pushSource doc ∈ (run_main w splits pfx dry).trace) :
    doc.serial = w.source.serial + 1 := by
  have hloop := foldl_no_pushSource dry pfx splits
    { source_state := w.source, targets := w.targets, to_remove := [],
      trace := [StoreOp.pullSource w.source] } doc
  by_cases hc : ((!dry) &&
      (!((splits.foldl (processMapping dry pfx)
        { source_state := w.source, targets := w.targets, to_remove := [],
          trace := [StoreOp.pullSource w.source] }).to_remove.isEmpty))) = true
  · simp only [run_main, hc, if_true, List.mem_append] at h
    rcases h with h | h
    · have := hloop.mp h
      simp at this
    · simp only [List.mem_singleton] at h
      injection h with h
      subst h
      rfl
  · simp only [run_main, hc, if_false] at h
    have := hloop.mp h
    simp at this

/-- Witness for `c3_source_push_serial`: in the `w0` run the pushed document
carries serial `5 + 1 = 6`. -/
theorem c3_source_push_serial_witness : pushedDoc0.serial = w0.source.serial + 1 :=
  c3_source_push_serial w0 splits0 pfx0 false pushedDoc0 (by decide)

/-- C7 (confirmed): a dry run invokes no push operation on any store, and the
source store's document is identical before and after the run. -/
theorem c7_dry_run_no_side_effects (w : World) (splits : List (String × String))
    (pfx : String → Option (String × String)) :
    (run_main w splits pfx true).world.source = w.source ∧
    (run_main w splits pfx true).trace.all (fun op => !(isPushOp op)) = true := by
  have hfold := foldl_dry_all pfx splits
    { source_state := w.source, targets := w.targets, to_remove := [],
      trace := [StoreOp.pullSource w.source] }
  constructor
  · simp [run_main]
  · simp only [run_main, Bool.not_true, Bool.false_and, if_false]
    simpa [isPushOp] using hfold

end StateSplitter
